import Mathlib

/-!
Shallow embedding of `src/invite_contributors.py` (the autopub
invite-contributors plugin) and verification of its specification.

The remote GitHub client is an external collaborator; its lookups are
modelled as oracle functions carried in a `RunEnv`, and the observable
side effects of a run (dry-run notices and issued invite requests) are
collected in an explicit effect trace.
-/

namespace InviteContributors

/-! ## Python string primitives used by the source -/

/-- Characters treated as whitespace by Python `str.strip()`. -/
def isPySpace (c : Char) : Bool :=
  c = ' ' || c = '\t' || c = '\n' || c = '\r' || c = '\x0b' || c = '\x0c'

/-- Characters on which Python `str.splitlines()` breaks lines
(`\r\n` is additionally treated as a single break). -/
def isPyLineBreak (c : Char) : Bool :=
  c = '\n' || c = '\r' || c = '\x0b' || c = '\x0c' ||
  c = '\x1c' || c = '\x1d' || c = '\x1e' || c = '\x85' ||
  c = '\u2028' || c = '\u2029'

/-- Helper for `pySplitlines`: accumulates the current line (reversed). -/
def splitlinesAux : List Char → List Char → List String
  | [], [] => []
  | [], acc => [⟨acc.reverse⟩]
  | '\r' :: '\n' :: rest, acc => ⟨acc.reverse⟩ :: splitlinesAux rest []
  | c :: rest, acc =>
    if isPyLineBreak c then ⟨acc.reverse⟩ :: splitlinesAux rest []
    else splitlinesAux rest (c :: acc)

/-- Python `str.splitlines()`. -/
def pySplitlines (s : String) : List String :=
  splitlinesAux s.toList []

/-- Python `str.strip()`: remove leading and trailing whitespace. -/
def pyStrip (s : String) : String :=
  ⟨((s.toList.dropWhile isPySpace).reverse.dropWhile isPySpace).reverse⟩

/-- Python `s.startswith(p)`. -/
def pyStartsWith (s p : String) : Bool :=
  p.toList.isPrefixOf s.toList

/-- Python `s.endswith(p)`. -/
def pyEndsWith (s p : String) : Bool :=
  p.toList.isSuffixOf s.toList

/-- Python `line.split(":", 1)[1]`: everything after the first colon.
In the source this is only evaluated on lines starting with
`"Co-authored-by:"`, which always contain a colon. -/
def afterFirstColon (s : String) : String :=
  ⟨(s.toList.dropWhile (fun c => c ≠ ':')).drop 1⟩

/-- Python `s.split(" ", 1)[0]`: the part before the first space
character (the whole string when it has no space). -/
def beforeFirstSpace (s : String) : String :=
  ⟨s.toList.takeWhile (fun c => c ≠ ' ')⟩

/-- Python `s.lstrip("@")`: remove every leading `@`. -/
def lstripAt (s : String) : String :=
  ⟨s.toList.dropWhile (fun c => c = '@')⟩

/-! ## Configuration (`InviteContributorsConfig`) -/

/-- The constant `KNOWN_BOT_EXCLUSIONS` of the source. -/
def KNOWN_BOT_EXCLUSIONS : List String :=
  ["dependabot-preview[bot]", "dependabot-preview", "dependabot", "dependabot[bot]"]

/-- The `role` literal of the config. -/
inductive Role
  | direct_member
  | admin
  | billing_manager
deriving DecidableEq, Repr

/-- `InviteContributorsConfig` — `organization : str | None` keeps the
optional string shape so that Python truthiness (`None` and `""` both
falsy) can be modelled faithfully. -/
structure Config where
  organization : Option String
  team_slug : Option String
  role : Role
  skip_bots : Bool
  include_co_authors : Bool
  exclude_users : List String
  dry_run : Bool
deriving DecidableEq, Repr

/-- The default configuration values of `InviteContributorsConfig`. -/
def defaultConfig : Config where
  organization := none
  team_slug := none
  role := .direct_member
  skip_bots := true
  include_co_authors := true
  exclude_users := KNOWN_BOT_EXCLUSIONS
  dry_run := false

/-! ## Lexicographic string order and Python `sorted` on a string set

Python compares strings lexicographically by code point; this is the
lexicographic order on the character lists.  (The builtin `String`
order of the library is the same order, but its comparison function is
not kernel-reducible, so the list form is used for computation and the
orders are bridged through `String.le_iff_toList_le`.) -/

/-- Code-point lexicographic order on strings, as Python compares. -/
def strLe (a b : String) : Prop := a.toList ≤ b.toList

instance : DecidableRel strLe :=
  fun a b => inferInstanceAs (Decidable (a.toList ≤ b.toList))

instance : IsTrans String strLe := ⟨fun a b c h1 h2 => by
  unfold strLe at *
  rw [← String.le_iff_toList_le] at *
  exact le_trans h1 h2⟩

instance : IsAntisymm String strLe := ⟨fun a b h1 h2 => by
  unfold strLe at *
  rw [← String.le_iff_toList_le] at *
  exact le_antisymm h1 h2⟩

instance : IsTotal String strLe := ⟨fun a b => by
  unfold strLe
  rw [← String.le_iff_toList_le, ← String.le_iff_toList_le]
  exact le_total a b⟩

/-- Python `sorted()` over a set of strings: the unique ascending
enumeration of the set.  Well defined on the quotient because two
sorted lists that are permutations of each other are equal. -/
def pySorted (s : Finset String) : List String :=
  Quot.liftOn s.val (fun l => l.insertionSort strLe)
    (fun _ l2 h =>
      List.eq_of_perm_of_sorted
        ((List.perm_insertionSort _ _).trans ((Quotient.exact (Quotient.sound h)).trans
          (List.perm_insertionSort strLe l2).symm))
        (List.sorted_insertionSort _ _) (List.sorted_insertionSort _ _))

/-! ## Event payload and remote data model -/

/-- The `pull_request` member of the event payload (only its number is
read by the source). -/
structure PullRequestRef where
  number : Nat
deriving DecidableEq, Repr

/-- The `head_commit` member of the event payload. -/
structure HeadCommitRef where
  id : String
deriving DecidableEq, Repr

/-- One element of the `commits` list of the event payload. -/
structure CommitRef where
  id : String
deriving DecidableEq, Repr

/-- The structured event document (`self._event_data`).  An absent or
falsy member is `none` / `[]`, matching the truthiness tests of the
source. -/
structure EventData where
  pull_request : Option PullRequestRef
  head_commit : Option HeadCommitRef
  commits : List CommitRef
deriving DecidableEq, Repr

/-- A commit author object; `login` is `none` when
`getattr(author, "login", None)` yields nothing. -/
structure Author where
  login : Option String
deriving DecidableEq, Repr

/-- A commit of a pull request: optional `author` object
(`getattr(commit, "author", None)`) and the raw commit message
(`commit.commit.message`). -/
structure Commit where
  author : Option Author
  message : String
deriving DecidableEq, Repr

/-- A pull request as consumed by the source: `pr.user.login` and the
full sequence `pr.get_commits()`. -/
structure PullRequest where
  userLogin : String
  commits : List Commit
deriving DecidableEq, Repr

/-- The owning organization reference of a repository
(`self.repository.organization`), `none` when the repository does not
belong to an organization. -/
structure OrgRef where
  login : String
deriving DecidableEq, Repr

/-- The repository, as read by `_resolve_organization`. -/
structure Repository where
  organization : Option OrgRef
deriving DecidableEq, Repr

/-! ## Errors and remote outcomes -/

/-- `AutopubException(message)` as raised by the source. -/
structure AutopubError where
  message : String
deriving DecidableEq, Repr

/-- A `GithubException` raised by `organization.invite_user`: its
`status`, the optional `"message"` entry of its `data` dict
(`dataMessage = some m` when `data` is a dict, with `m` the value of a
present `"message"` key), and `str(exc)`. -/
structure GithubError where
  status : Nat
  dataMessage : Option (Option String)
  text : String
deriving DecidableEq, Repr

/-- The message the source extracts from a `GithubException`:
`exc.data.get("message", str(exc))` when `data` is a dict, else
`str(exc)`. -/
def githubErrorMessage (e : GithubError) : String :=
  match e.dataMessage with
  | some (some m) => m
  | some none => e.text
  | none => e.text

/-! ## Trailer parsing (inline loop of `_get_pr_contributors`) -/

/-- The per-line co-author extraction of `_get_pr_contributors`:
lines not starting with the literal `"Co-authored-by:"` contribute
nothing; otherwise the value after the first colon is stripped, cut at
the first space character, all leading `@` removed, and an empty
result is discarded. -/
def coauthorOfLine (line : String) : Option String :=
  if pyStartsWith line "Co-authored-by:" then
    let trailer_value := pyStrip (afterFirstColon line)
    let login := lstripAt (beforeFirstSpace trailer_value)
    if login = "" then none else some login
  else none

/-- All co-author logins extracted from a raw commit message, in order
of appearance. -/
def extractCoauthors (message : String) : List String :=
  (pySplitlines message).filterMap coauthorOfLine

/-! ## Contributor resolution (`_get_pr_contributors`) -/

/-- The body of the `for commit in pr.get_commits()` loop: add the
commit author login when the author object and a truthy login are
present, then (when `include_co_authors` is set) add every extracted
co-author login. -/
def commitStep (cfg : Config) (s : Finset String) (c : Commit) : Finset String :=
  let s1 :=
    match c.author with
    | some a =>
      match a.login with
      | some l => if l = "" then s else insert l s
      | none => s
    | none => s
  if cfg.include_co_authors then
    (extractCoauthors c.message).foldl (fun t l => insert l t) s1
  else s1

/-- `_get_pr_contributors`: the set seeded with the PR author login,
grown by one `commitStep` per commit. -/
def getPrContributors (cfg : Config) (pr : PullRequest) : Finset String :=
  pr.commits.foldl (commitStep cfg) {pr.userLogin}

/-! ## Contributor filtering (`_filter_contributors`) -/

/-- The keep-condition of the filter loop: skip logins in
`exclude_users` (exact match) and, when `skip_bots` is set, logins
ending in the literal `[bot]`. -/
def keepLogin (cfg : Config) (login : String) : Bool :=
  !(cfg.exclude_users.contains login) && !(cfg.skip_bots && pyEndsWith login "[bot]")

/-- `_filter_contributors`: iterate over `sorted(contributors)` keeping
the logins that pass `keepLogin`. -/
def filterContributors (cfg : Config) (contributors : Finset String) : List String :=
  (pySorted contributors).filter (keepLogin cfg)

/-! ## PR location (`_get_pr_number`) -/

/-- `_get_pr_number`, with `commit.get_pulls()` modelled by the oracle
`associatedPulls : sha → list of PR numbers`; `pulls[0].number` with
the `IndexError` fallback is `List.head?`. -/
def getPrNumber (eventData : Option EventData)
    (associatedPulls : String → List Nat) : Option Nat :=
  match eventData with
  | none => none
  | some e =>
    match e.pull_request with
    | some pr => some pr.number
    | none =>
      let sha? :=
        match e.head_commit with
        | some hc => some hc.id
        | none =>
          match e.commits with
          | [] => none
          | c :: _ => some c.id
      match sha? with
      | none => none
      | some sha => (associatedPulls sha).head?

/-! ## Organization and team resolution -/

/-- `_resolve_organization`, with the client lookup
`self._github.get_organization(name)` modelled by the name it is given
(the resolved organization is determined by that name).  The two
truthiness tests of the source are `optStrTruthy` on the configured
name and the `Option` test on `repository.organization`. -/
def resolveOrganization (cfg : Config) (repo : Repository) :
    Except AutopubError String :=
  match cfg.organization with
  | some org =>
    if org = "" then
      match repo.organization with
      | some o => .ok o.login
      | none =>
        .error ⟨"No organization configured. Set tool.autopub.plugin_config" ++
          ".invite_contributors.organization"⟩
    else .ok org
  | none =>
    match repo.organization with
    | some o => .ok o.login
    | none =>
      .error ⟨"No organization configured. Set tool.autopub.plugin_config" ++
        ".invite_contributors.organization"⟩

/-- `_resolve_team`, with `organization.get_team_by_slug(slug)`
modelled by the slug it is given; `None` when `team_slug` is falsy. -/
def resolveTeam (cfg : Config) : Option String :=
  match cfg.team_slug with
  | some slug => if slug = "" then none else some slug
  | none => none

/-! ## Invitations (`_invite_login` and `post_publish`) -/

/-- The outcome of one `organization.invite_user(...)` call, supplied
per login by the environment: `none` when the call succeeds, `some e`
when it raises a `GithubException e`. -/
def InviteOracle := String → Option GithubError

/-- `_invite_login` (its control flow after the invite request): a 422
response is swallowed, any other `GithubException` is wrapped into an
`AutopubException` naming the login and the extracted message. -/
def inviteLogin (oracle : InviteOracle) (login : String) :
    Except AutopubError Unit :=
  match oracle login with
  | none => .ok ()
  | some exc =>
    if exc.status = 422 then .ok ()
    else .error ⟨"Failed to invite @" ++ login ++ ": " ++ githubErrorMessage exc⟩

/-- An observable side effect of the run: a dry-run notice line, or an
issued invite request (the `organization.invite_user` call, which is
issued even when it then fails). -/
inductive Effect
  | notice (login : String)
  | inviteRequest (login : String)
deriving DecidableEq, Repr

/-- The `for login in contributors_to_invite` loop of `post_publish`:
dry-run prints a notice and continues; otherwise the invite request is
issued and a wrapped failure aborts the rest of the loop. -/
def inviteLoop (cfg : Config) (oracle : InviteOracle) :
    List String → List Effect × Except AutopubError Unit
  | [] => ([], .ok ())
  | login :: rest =>
    if cfg.dry_run then
      let r := inviteLoop cfg oracle rest
      (.notice login :: r.1, r.2)
    else
      match inviteLogin oracle login with
      | .ok _ =>
        let r := inviteLoop cfg oracle rest
        (.inviteRequest login :: r.1, r.2)
      | .error e => ([.inviteRequest login], .error e)

/-- The external collaborators of one run: the event document, the
associated-pulls lookup of `commit.get_pulls()`, the pull-request
fetch of `repository.get_pull`, the repository, and the invite
outcome per login. -/
structure RunEnv where
  eventData : Option EventData
  associatedPulls : String → List Nat
  getPull : Nat → PullRequest
  repo : Repository
  oracle : InviteOracle

/-- `post_publish`: locate the PR, resolve and filter contributors,
resolve the organization (and team), then run the invite loop.  The
result is the effect trace together with normal or error termination. -/
def post_publish (cfg : Config) (env : RunEnv) :
    List Effect × Except AutopubError Unit :=
  match getPrNumber env.eventData env.associatedPulls with
  | none => ([], .ok ())
  | some n =>
    let pr := env.getPull n
    let contributors := getPrContributors cfg pr
    let contributors_to_invite := filterContributors cfg contributors
    if contributors_to_invite = [] then ([], .ok ())
    else
      match resolveOrganization cfg env.repo with
      | .error e => ([], .error e)
      | .ok _org =>
        let _team := resolveTeam cfg
        inviteLoop cfg env.oracle contributors_to_invite

/-! ## Supporting lemmas -/

/-- The filter loop output of `pySorted` is ascending. -/
theorem pySorted_sorted (s : Finset String) : (pySorted s).Sorted strLe := by
  rcases s with ⟨val, nodup⟩
  induction val using Quot.inductionOn with
  | _ l => exact List.sorted_insertionSort _ _

/-- Membership in `pySorted` is membership in the set. -/
theorem mem_pySorted (s : Finset String) (x : String) : x ∈ pySorted s ↔ x ∈ s := by
  rcases s with ⟨val, nodup⟩
  induction val using Quot.inductionOn with
  | _ l =>
    show x ∈ l.insertionSort strLe ↔ _
    rw [(List.perm_insertionSort _ _).mem_iff]
    rfl

/-! ## Claims C4, C5, C10: PR location and organization resolution -/

/-- Claim C4: pull-request location precedence — a present
`pull_request` number is used directly (for every associated-pulls
oracle, so no lookup can influence it); otherwise `head_commit.id`,
otherwise the id of the first commit, keys the associated-pulls
lookup of which the first result is taken; an absent payload, an
empty commits list without head commit, and an empty associated-pulls
result all give `none`, and the function is total (never an error). -/
theorem C4_pr_location_precedence (ap : String → List Nat) (pr : PullRequestRef)
    (hc : HeadCommitRef) (hco : Option HeadCommitRef) (c : CommitRef)
    (cs cm : List CommitRef) :
    getPrNumber none ap = none
  ∧ getPrNumber (some ⟨some pr, hco, cm⟩) ap = some pr.number
  ∧ getPrNumber (some ⟨none, some hc, cm⟩) ap = (ap hc.id).head?
  ∧ getPrNumber (some ⟨none, none, c :: cs⟩) ap = (ap c.id).head?
  ∧ getPrNumber (some ⟨none, none, []⟩) ap = none
  ∧ getPrNumber (some ⟨none, some hc, cm⟩) (fun _ => []) = none :=
  ⟨rfl, rfl, rfl, rfl, rfl, rfl⟩

/-- Claim C5: organization resolution — a configured (non-empty)
organization name is resolved directly; with no configured name the
owning organization of the repository is resolved; with neither, the
fatal no-organization-configured error is raised. -/
theorem C5_resolve_organization (repo : Repository) (name : String) (o : OrgRef)
    (cfg : Config) :
    (cfg.organization = some name → name ≠ "" →
      resolveOrganization cfg repo = .ok name)
  ∧ (cfg.organization = none → repo.organization = some o →
      resolveOrganization cfg repo = .ok o.login)
  ∧ (cfg.organization = none → repo.organization = none →
      resolveOrganization cfg repo =
        .error ⟨"No organization configured. Set tool.autopub.plugin_config" ++
          ".invite_contributors.organization"⟩) := by
  refine ⟨fun h1 h2 => ?_, fun h1 h2 => ?_, fun h1 h2 => ?_⟩ <;>
    simp [resolveOrganization, h1, h2]

/-- Witness for C5 at concrete inputs. -/
theorem C5_resolve_organization_witness :
    resolveOrganization { defaultConfig with organization := some "acme" } ⟨none⟩ =
      .ok "acme"
  ∧ resolveOrganization defaultConfig ⟨some ⟨"owner-org"⟩⟩ = .ok "owner-org"
  ∧ resolveOrganization defaultConfig ⟨none⟩ =
      .error ⟨"No organization configured. Set tool.autopub.plugin_config" ++
        ".invite_contributors.organization"⟩ :=
  ⟨(C5_resolve_organization ⟨none⟩ "acme" ⟨"x"⟩
      { defaultConfig with organization := some "acme" }).1 rfl (by decide),
   (C5_resolve_organization ⟨some ⟨"owner-org"⟩⟩ "x" ⟨"owner-org"⟩ defaultConfig).2.1
      rfl rfl,
   (C5_resolve_organization ⟨none⟩ "x" ⟨"x"⟩ defaultConfig).2.2 rfl rfl⟩

/-- Claim C10: an organization configured as the empty string is
treated exactly like an unset organization — resolution behaves as in
the unset-configuration run, falling back to the owning organization
of the repository or to the no-organization error, and the empty
string itself is never resolved. -/
theorem C10_empty_string_organization (repo : Repository) (o : OrgRef)
    (cfg : Config) :
    (cfg.organization = some "" →
      resolveOrganization cfg repo =
        resolveOrganization { cfg with organization := none } repo)
  ∧ (cfg.organization = some "" → repo.organization = some o →
      resolveOrganization cfg repo = .ok o.login)
  ∧ (cfg.organization = some "" → repo.organization = none →
      resolveOrganization cfg repo =
        .error ⟨"No organization configured. Set tool.autopub.plugin_config" ++
          ".invite_contributors.organization"⟩) := by
  refine ⟨fun h1 => ?_, fun h1 h2 => ?_, fun h1 h2 => ?_⟩
  · simp [resolveOrganization, h1]
  · simp [resolveOrganization, h1, h2]
  · simp [resolveOrganization, h1, h2]

/-- Witness for C10 at concrete inputs. -/
theorem C10_empty_string_organization_witness :
    resolveOrganization { defaultConfig with organization := some "" }
      ⟨some ⟨"acme"⟩⟩ = .ok "acme"
  ∧ resolveOrganization { defaultConfig with organization := some "" } ⟨none⟩ =
      .error ⟨"No organization configured. Set tool.autopub.plugin_config" ++
        ".invite_contributors.organization"⟩ :=
  ⟨(C10_empty_string_organization ⟨some ⟨"acme"⟩⟩ ⟨"acme"⟩
      { defaultConfig with organization := some "" }).2.1 rfl rfl,
   (C10_empty_string_organization ⟨none⟩ ⟨"x"⟩
      { defaultConfig with organization := some "" }).2.2 rfl rfl⟩

/-! ## Claim C7: deterministic filtering -/

/-- Claim C7: `_filter_contributors` maps the set
`{"bob", "alice", "dependabot[bot]"}` under the default configuration
to exactly `["alice", "bob"]`; in general the output is
lexicographically sorted, drops every login of `exclude_users` (exact
match) and, when `skip_bots` is set, every login ending in the literal
`[bot]`.  Determinism is inherent: the output is a function of the
input set and configuration alone. -/
theorem C7_filter_contributors (cfg : Config) (s : Finset String) :
    filterContributors defaultConfig {"bob", "alice", "dependabot[bot]"} =
      ["alice", "bob"]
  ∧ (filterContributors cfg s).Sorted strLe
  ∧ (∀ l, l ∈ cfg.exclude_users → l ∉ filterContributors cfg s)
  ∧ (cfg.skip_bots = true →
      ∀ l, l ∈ filterContributors cfg s → pyEndsWith l "[bot]" = false) := by
  refine ⟨by decide, List.Pairwise.filter _ (pySorted_sorted s), ?_, ?_⟩
  · intro l hex hmem
    obtain ⟨-, hkeep⟩ := List.mem_filter.mp hmem
    simp [keepLogin] at hkeep
    exact hkeep.1 hex
  · intro hsb l hmem
    obtain ⟨-, hkeep⟩ := List.mem_filter.mp hmem
    simp [keepLogin, hsb] at hkeep
    exact hkeep.2

/-- Witness for C7 at concrete inputs. -/
theorem C7_filter_contributors_witness :
    filterContributors defaultConfig {"bob", "alice", "dependabot[bot]"} =
      ["alice", "bob"]
  ∧ (filterContributors defaultConfig {"zed", "ann"}).Sorted strLe :=
  ⟨(C7_filter_contributors defaultConfig {"x"}).1,
   (C7_filter_contributors defaultConfig {"zed", "ann"}).2.1⟩

/-! ## Claim C3: the trailer extraction rule -/

/-- The first token of a string delimited by any whitespace character,
as the claim words the extraction. -/
def firstWhitespaceToken (s : String) : String :=
  ⟨s.toList.takeWhile (fun c => !(isPySpace c))⟩

/-- Exactly one leading at-sign removed, as the claim words it. -/
def stripOneLeadingAt (s : String) : String :=
  match s.toList with
  | '@' :: rest => ⟨rest⟩
  | _ => s

/-- The per-line extraction exactly as claim C3 states it: first
whitespace-delimited token of the trimmed trailer value, one leading
at-sign stripped, empty results discarded. -/
def claimedCoauthorOfLine (line : String) : Option String :=
  if pyStartsWith line "Co-authored-by:" then
    let v := pyStrip (afterFirstColon line)
    let login := stripOneLeadingAt (firstWhitespaceToken v)
    if login = "" then none else some login
  else none

/-- The amended extraction rule: the trimmed trailer value is cut at
the first space character (only the space, not general whitespace),
and every leading at-sign (not just one) is removed. -/
def amendedCoauthorOfLine (line : String) : Option String :=
  if pyStartsWith line "Co-authored-by:" then
    let v := pyStrip (afterFirstColon line)
    let login : String :=
      ⟨(v.toList.takeWhile (fun c => c ≠ ' ')).dropWhile (fun c => c = '@')⟩
    if login = "" then none else some login
  else none

/-- Whatever `List.dropWhile` leaves starts with a character failing
the predicate. -/
theorem dropWhile_head_false (p : Char → Bool) (l : List Char) :
    ∀ x xs, l.dropWhile p = x :: xs → p x = false := by
  induction l with
  | nil => intro x xs h; simp [List.dropWhile] at h
  | cons a as ih =>
    intro x xs h
    rw [List.dropWhile_cons] at h
    by_cases hp : p a
    · rw [if_pos hp] at h
      exact ih x xs h
    · rw [if_neg hp] at h
      cases h
      exact Bool.not_eq_true _ |>.mp hp

/-- Claim C3 is refuted on the line
`"Co-authored-by: @@jdoe\tx"`: the code takes the part before the
first space (the whole value, as it has no space, only a tab) and
strips both at-signs, producing `"jdoe\tx"`, while the claimed rule
(whitespace-delimited token, one at-sign stripped) gives `"@jdoe"`. -/
theorem C3_counterexample_trailer_rule :
    coauthorOfLine "Co-authored-by: @@jdoe\tx" = some "jdoe\tx"
  ∧ claimedCoauthorOfLine "Co-authored-by: @@jdoe\tx" = some "@jdoe"
  ∧ coauthorOfLine "Co-authored-by: @@jdoe\tx" ≠
      claimedCoauthorOfLine "Co-authored-by: @@jdoe\tx" := by
  refine ⟨by decide, by decide, by decide⟩

/-- Claim C3 amended: for every qualifying line the extracted login is
the part of the trimmed trailer value before the first space
character with every leading at-sign stripped, discarded when empty;
the concrete example of the spec still extracts `"jdoe"`, and every
login the parser emits is non-empty and carries no leading at-sign. -/
theorem C3_amended_trailer_rule (message line : String) :
    coauthorOfLine line = amendedCoauthorOfLine line
  ∧ extractCoauthors "Co-authored-by: @jdoe <jdoe@users.noreply.example.com>" =
      ["jdoe"]
  ∧ (∀ l, l ∈ extractCoauthors message → l ≠ "" ∧ pyStartsWith l "@" = false) := by
  refine ⟨rfl, by decide, ?_⟩
  intro l hl
  obtain ⟨line0, -, hline⟩ := List.mem_filterMap.mp hl
  unfold coauthorOfLine at hline
  by_cases hq : pyStartsWith line0 "Co-authored-by:" = true
  · rw [if_pos hq] at hline
    by_cases hz :
        lstripAt (beforeFirstSpace (pyStrip (afterFirstColon line0))) = ""
    · rw [if_pos hz] at hline
      cases hline
    · rw [if_neg hz] at hline
      have hle : l = lstripAt (beforeFirstSpace (pyStrip (afterFirstColon line0))) :=
        (Option.some.injEq _ _).mp hline.symm
      subst hle
      refine ⟨hz, ?_⟩
      unfold lstripAt at hz ⊢
      cases hdw : (beforeFirstSpace (pyStrip (afterFirstColon line0))).toList.dropWhile
          (fun c => c = '@') with
      | nil => exact absurd (congrArg String.mk hdw) hz
      | cons x xs =>
        have hx := dropWhile_head_false (fun c => c = '@')
          ((beforeFirstSpace (pyStrip (afterFirstColon line0))).toList) x xs hdw
        have hxne : ¬ ('@' = x) := fun he => by simp [← he] at hx
        show List.isPrefixOf ['@'] (x :: xs) = false
        simp [List.isPrefixOf, hxne]
  · rw [if_neg hq] at hline
    cases hline

/-! ## Claim C8: contributor resolution is order independent -/

/-- Folding set insertion over a list from any start is the start
joined with the fold from the empty set. -/
theorem foldl_insert_eq_union (l : List String) :
    ∀ s : Finset String,
      l.foldl (fun t x => insert x t) s = s ∪ l.foldl (fun t x => insert x t) ∅ := by
  induction l with
  | nil => intro s; simp
  | cons a as ih =>
    intro s
    simp only [List.foldl_cons]
    rw [ih (insert a s), ih (insert a ∅), Finset.insert_union, Finset.insert_union,
      Finset.empty_union, Finset.union_insert]

/-- One loop iteration of `_get_pr_contributors` only joins the
contribution of the commit onto the set built so far. -/
theorem commitStep_eq_union (cfg : Config) (s : Finset String) (c : Commit) :
    commitStep cfg s c = s ∪ commitStep cfg ∅ c := by
  rcases c with ⟨author, message⟩
  have key : ∀ t : Finset String,
      (if cfg.include_co_authors = true then
        (extractCoauthors message).foldl (fun u x => insert x u) (s ∪ t) else s ∪ t) =
      s ∪ (if cfg.include_co_authors = true then
        (extractCoauthors message).foldl (fun u x => insert x u) t else t) := by
    intro t
    by_cases h : cfg.include_co_authors = true
    · rw [if_pos h, if_pos h, foldl_insert_eq_union, foldl_insert_eq_union (extractCoauthors message) t,
        Finset.union_assoc]
    · rw [if_neg h, if_neg h]
  simp only [commitStep]
  rcases author with - | ⟨login⟩
  · have h0 := key ∅
    rw [Finset.union_empty] at h0
    exact h0
  · rcases login with - | lg
    · have h0 := key ∅
      rw [Finset.union_empty] at h0
      exact h0
    · by_cases hlg : lg = ""
      · simp only [if_pos hlg]
        have h0 := key ∅
        rw [Finset.union_empty] at h0
        exact h0
      · simp only [if_neg hlg]
        have h0 := key (insert lg ∅)
        rw [Finset.union_insert, Finset.union_empty] at h0
        exact h0

/-- Loop iterations of `_get_pr_contributors` commute. -/
theorem commitStep_right_comm (cfg : Config) (s : Finset String) (a b : Commit) :
    commitStep cfg (commitStep cfg s a) b = commitStep cfg (commitStep cfg s b) a := by
  rw [commitStep_eq_union cfg s a, commitStep_eq_union cfg s b,
    commitStep_eq_union cfg (s ∪ commitStep cfg ∅ a) b,
    commitStep_eq_union cfg (s ∪ commitStep cfg ∅ b) a]
  exact Finset.union_right_comm s (commitStep cfg ∅ a) (commitStep cfg ∅ b)

/-- Claim C8: `_get_pr_contributors` is deterministic over a fixed PR
snapshot (a second run returns the same set) and the resulting set
does not depend on the enumeration order of the commits. -/
theorem C8_contributors_order_independent (cfg : Config) (pr : PullRequest)
    (commits2 : List Commit) (hperm : pr.commits.Perm commits2) :
    getPrContributors cfg pr = getPrContributors cfg pr
  ∧ getPrContributors cfg { userLogin := pr.userLogin, commits := commits2 } =
      getPrContributors cfg pr := by
  refine ⟨rfl, ?_⟩
  unfold getPrContributors
  haveI : RightCommutative (commitStep cfg) :=
    ⟨fun s a b => commitStep_right_comm cfg s a b⟩
  exact (hperm.foldl_eq _).symm

/-- Witness for C8: two commits enumerated in both orders. -/
theorem C8_contributors_order_independent_witness :
    getPrContributors defaultConfig
      { userLogin := "alice",
        commits := [⟨some ⟨some "bob"⟩, "m1"⟩, ⟨none, "Co-authored-by: @carol x"⟩] } =
    getPrContributors defaultConfig
      { userLogin := "alice",
        commits := [⟨none, "Co-authored-by: @carol x"⟩, ⟨some ⟨some "bob"⟩, "m1"⟩] } :=
  (C8_contributors_order_independent defaultConfig
    { userLogin := "alice",
      commits := [⟨none, "Co-authored-by: @carol x"⟩, ⟨some ⟨some "bob"⟩, "m1"⟩] }
    [⟨some ⟨some "bob"⟩, "m1"⟩, ⟨none, "Co-authored-by: @carol x"⟩]
    (List.Perm.swap _ _ _)).2

/-! ## Claims C1, C2: invite failure handling -/

/-- Claim C2: a 422 (conflict/duplicate) response from the invite
request is swallowed — the invite operation returns normally — and a
non-dry run in which every raised response is a 422 completes the
whole loop successfully, issuing one invite request per login. -/
theorem C2_conflict_is_success (cfg : Config) (oracle : InviteOracle)
    (logins : List String)
    (hdry : cfg.dry_run = false)
    (h422 : ∀ l exc, oracle l = some exc → exc.status = 422) :
    (∀ l, inviteLogin oracle l = .ok ())
  ∧ inviteLoop cfg oracle logins = (logins.map Effect.inviteRequest, .ok ()) := by
  have hok : ∀ l, inviteLogin oracle l = .ok () := by
    intro l
    unfold inviteLogin
    cases ho : oracle l with
    | none => rfl
    | some exc => simp [h422 l exc ho]
  refine ⟨hok, ?_⟩
  induction logins with
  | nil => rfl
  | cons a as ih => simp [inviteLoop, hdry, hok a, ih]

/-- An invite-request oracle whose every call raises a 422 conflict. -/
def oracleAll422 : InviteOracle := fun _ => some ⟨422, none, "dup"⟩

/-- Witness for C2: a run over `["alice", "carol"]` in which every
invite raises a 422 completes successfully. -/
theorem C2_conflict_is_success_witness :
    inviteLogin oracleAll422 "carol" = .ok ()
  ∧ inviteLoop defaultConfig oracleAll422 ["alice", "carol"] =
      ([Effect.inviteRequest "alice", Effect.inviteRequest "carol"], .ok ()) :=
  have h := C2_conflict_is_success defaultConfig oracleAll422 ["alice", "carol"] rfl
    (fun l exc h => by cases h; rfl)
  ⟨h.1 "carol", h.2⟩

/-- Claim C1: when the invite request for a login raises anything
other than a 422, the loop stops there with an `AutopubException`
whose message names that login and carries the extracted remote
message; the logins before it (whose invites returned normally) each
got their invite request, and no invite request is issued past the
failing login. -/
theorem C1_non_conflict_failure_aborts (cfg : Config) (oracle : InviteOracle)
    (before after : List String) (login : String) (exc : GithubError)
    (hdry : cfg.dry_run = false)
    (hbefore : ∀ l ∈ before, inviteLogin oracle l = .ok ())
    (hfail : oracle login = some exc) (hstatus : exc.status ≠ 422) :
    inviteLoop cfg oracle (before ++ login :: after) =
      (before.map Effect.inviteRequest ++ [Effect.inviteRequest login],
       .error ⟨"Failed to invite @" ++ login ++ ": " ++ githubErrorMessage exc⟩)
  ∧ ∀ l, Effect.inviteRequest l ∈ (inviteLoop cfg oracle (before ++ login :: after)).1 →
      l ∈ before ∨ l = login := by
  have hfailing : inviteLogin oracle login =
      .error ⟨"Failed to invite @" ++ login ++ ": " ++ githubErrorMessage exc⟩ := by
    unfold inviteLogin
    rw [hfail]
    simp [hstatus]
  have hmain : inviteLoop cfg oracle (before ++ login :: after) =
      (before.map Effect.inviteRequest ++ [Effect.inviteRequest login],
       .error ⟨"Failed to invite @" ++ login ++ ": " ++ githubErrorMessage exc⟩) := by
    induction before with
    | nil => simp [inviteLoop, hdry, hfailing]
    | cons a as ih =>
      have ha := hbefore a (List.mem_cons_self a as)
      have ih2 := ih (fun l hl => hbefore l (List.mem_cons_of_mem a hl))
      simp [inviteLoop, hdry, ha, ih2]
  refine ⟨hmain, ?_⟩
  intro l hl
  rw [hmain] at hl
  simp only [List.mem_append, List.mem_map, List.mem_singleton] at hl
  rcases hl with ⟨x, hx, he⟩ | he
  · exact Or.inl (by cases he; exact hx)
  · exact Or.inr (by cases he; rfl)

/-- An invite-request oracle that raises a 403 with message `"boom"`
for `"dave"` and succeeds for everyone else. -/
def oracleDaveFails : InviteOracle :=
  fun l => if l = "dave" then some ⟨403, some (some "boom"), "t"⟩ else none

/-- Witness for C1: with `["carol", "dave", "erin"]` the run stops at
`"dave"` with the wrapped error, and `"erin"` gets no invite. -/
theorem C1_non_conflict_failure_aborts_witness :
    inviteLoop defaultConfig oracleDaveFails ["carol", "dave", "erin"] =
      ([Effect.inviteRequest "carol", Effect.inviteRequest "dave"],
       .error ⟨"Failed to invite @dave: boom"⟩) := by
  have h := (C1_non_conflict_failure_aborts defaultConfig oracleDaveFails
    ["carol"] ["erin"] "dave" ⟨403, some (some "boom"), "t"⟩ rfl
    (by intro l hl; rw [List.mem_singleton] at hl; subst hl; rfl)
    rfl (by decide)).1
  exact h

/-! ## Claims C6, C9: the orchestrated run -/

/-- Claim C6: with `dry_run` set the loop emits exactly one notice per
login, in order, and finishes normally; at the run level no invite
request ever appears in the effect trace, and whenever the run
reaches the loop (a PR was located and the organization resolved) its
effects are exactly the notices of the filtered list. -/
theorem C6_dry_run_no_invites (cfg : Config) (env : RunEnv) (oracle : InviteOracle)
    (logins : List String) (n : Nat) (orgName : String)
    (hdry : cfg.dry_run = true) :
    inviteLoop cfg oracle logins = (logins.map Effect.notice, .ok ())
  ∧ (∀ l, Effect.inviteRequest l ∉ (post_publish cfg env).1)
  ∧ (getPrNumber env.eventData env.associatedPulls = some n →
     resolveOrganization cfg env.repo = .ok orgName →
     post_publish cfg env =
       ((filterContributors cfg (getPrContributors cfg (env.getPull n))).map
          Effect.notice,
        .ok ())) := by
  have hloop : ∀ ls : List String,
      inviteLoop cfg oracle ls = (ls.map Effect.notice, .ok ()) := by
    intro ls
    induction ls with
    | nil => rfl
    | cons a as ih => simp [inviteLoop, hdry, ih]
  have hloopEnv : ∀ ls : List String,
      inviteLoop cfg env.oracle ls = (ls.map Effect.notice, .ok ()) := by
    intro ls
    induction ls with
    | nil => rfl
    | cons a as ih => simp [inviteLoop, hdry, ih]
  refine ⟨hloop logins, ?_, ?_⟩
  · intro l hl
    cases hpn : getPrNumber env.eventData env.associatedPulls with
    | none => simp [post_publish, hpn] at hl
    | some m =>
      simp only [post_publish, hpn] at hl
      by_cases hf :
          filterContributors cfg (getPrContributors cfg (env.getPull m)) = []
      · rw [if_pos hf] at hl
        simp at hl
      · rw [if_neg hf] at hl
        cases hro : resolveOrganization cfg env.repo with
        | error e =>
          rw [hro] at hl
          simp at hl
        | ok o =>
          rw [hro] at hl
          simp only [hloopEnv] at hl
          simp only [List.mem_map] at hl
          obtain ⟨x, -, hx⟩ := hl
          cases hx
  · intro hpn hro
    simp only [post_publish, hpn]
    by_cases hf :
        filterContributors cfg (getPrContributors cfg (env.getPull n)) = []
    · rw [if_pos hf, hf]
      rfl
    · rw [if_neg hf]
      simp only [hro]
      exact hloopEnv _

/-- A concrete dry-run environment: a direct pull-request event for PR
1, whose PR has author `"alice"` and one commit authored by `"bob"`,
in a repository owned by `"acme"`. -/
def dryRunEnv : RunEnv where
  eventData := some ⟨some ⟨1⟩, none, []⟩
  associatedPulls := fun _ => []
  getPull := fun _ => ⟨"alice", [⟨some ⟨some "bob"⟩, "m"⟩]⟩
  repo := ⟨some ⟨"acme"⟩⟩
  oracle := fun _ => none

/-- Witness for C6: the loop over `["alice", "bob"]` in dry-run mode
emits exactly two notices, and the concrete dry run issues no invite
request. -/
theorem C6_dry_run_no_invites_witness :
    inviteLoop { defaultConfig with dry_run := true } (fun _ => none)
      ["alice", "bob"] =
      ([Effect.notice "alice", Effect.notice "bob"], .ok ())
  ∧ Effect.inviteRequest "alice" ∉
      (post_publish { defaultConfig with dry_run := true } dryRunEnv).1 :=
  have h := C6_dry_run_no_invites { defaultConfig with dry_run := true }
    dryRunEnv (fun _ => none) ["alice", "bob"] 1 "acme" rfl
  ⟨h.1, h.2.1 "alice"⟩

/-- Claim C9: once a PR is located, an empty filtered list ends the
run successfully with no effects for every environment (in particular
organization resolution cannot fail there); a non-empty filtered list
with neither a configured organization nor an owning organization
fails with the configuration error exactly at the organization step —
after contributor resolution, with no invite effect issued. -/
theorem C9_resolution_precedes_org (cfg : Config) (env : RunEnv) (n : Nat)
    (hpn : getPrNumber env.eventData env.associatedPulls = some n) :
    (filterContributors cfg (getPrContributors cfg (env.getPull n)) = [] →
      post_publish cfg env = ([], .ok ()))
  ∧ (filterContributors cfg (getPrContributors cfg (env.getPull n)) ≠ [] →
     cfg.organization = none → env.repo.organization = none →
      post_publish cfg env =
        ([], .error ⟨"No organization configured. Set tool.autopub.plugin_config" ++
          ".invite_contributors.organization"⟩)) := by
  constructor
  · intro hf
    simp only [post_publish, hpn]
    rw [if_pos hf]
  · intro hf h1 h2
    simp only [post_publish, hpn]
    rw [if_neg hf]
    simp [resolveOrganization, h1, h2]

/-- An environment whose located PR only has the excluded author
`"dependabot"`, in a repository without an owning organization. -/
def emptyFilterEnv : RunEnv where
  eventData := some ⟨some ⟨5⟩, none, []⟩
  associatedPulls := fun _ => []
  getPull := fun _ => ⟨"dependabot", []⟩
  repo := ⟨none⟩
  oracle := fun _ => none

/-- Witness for C9: with only an excluded contributor the run ends
successfully even though no organization is available anywhere. -/
theorem C9_resolution_precedes_org_witness :
    post_publish defaultConfig emptyFilterEnv = ([], .ok ()) :=
  (C9_resolution_precedes_org defaultConfig emptyFilterEnv 5 rfl).1 (by decide)
